import Mathlib

/-!
Verification development for the MovieLens embedding recommender.

The repository contains three numeric cores that the claims touch:

* a `Map`-based bias-augmented factorization model (`TwoTowerModel` in the
  models file, together with `MLPModel`), trained by per-example SGD;
* a tensor-based two-tower model (`two-tower.js`) trained with an in-batch
  softmax cross-entropy (contrastive) loss;
* the application layer (`app.js`) with the PCA projector `computePCA` and
  the recommendation filter `filterAndSortRecommendations`.

JavaScript numbers are modelled as exact rationals (`ℚ`) where the code is
purely arithmetic, and as reals (`ℝ`) where transcendental functions
(`Math.exp`, `Math.log`, `Math.sqrt`) occur.  JavaScript `Map`s are modelled
as association lists in insertion order (`Map.set` updates in place or
appends, `Map.get` returns the first binding).  The `Math.random` stream is
abstracted as an explicit oracle `rng : ℕ → ℚ` giving the successive values
returned by `Math.random()`, and the random comparator shuffle
`[...xs].sort(() => Math.random() - 0.5)` is abstracted as an epoch-indexed
permutation oracle passed to `train`.
-/

namespace RecSys

attribute [local semireducible] Rat.add Rat.mul Rat.sub Rat.inv

/-- JS `Map.get`: first binding of the key, if any. -/
def mapGet {α : Type} : List (ℕ × α) → ℕ → Option α
  | [], _ => none
  | (k, v) :: rest, key => if k = key then some v else mapGet rest key

/-- JS `Map.set`: replace the existing binding in place, else append. -/
def mapSet {α : Type} : List (ℕ × α) → ℕ → α → List (ℕ × α)
  | [], key, v => [(key, v)]
  | (k, w) :: rest, key, v =>
    if k = key then (key, v) :: rest else (k, w) :: mapSet rest key v

/-- JS `Map.has`. -/
def mapHas {α : Type} (l : List (ℕ × α)) (k : ℕ) : Bool :=
  (mapGet l k).isSome

/-- State of the `Map`-based factorization model (`TwoTowerModel` in the
models file): per-entity embedding vectors and bias scalars, a global bias,
fixed hyperparameters, and the `isTrained` flag. -/
structure TwoTower where
  embeddingDim : ℕ
  userEmbeddings : List (ℕ × List ℚ)
  movieEmbeddings : List (ℕ × List ℚ)
  userBiases : List (ℕ × ℚ)
  movieBiases : List (ℕ × ℚ)
  globalBias : ℚ
  learningRate : ℚ
  regularization : ℚ
  isTrained : Bool
  deriving DecidableEq, Repr

/-- The constructor `new TwoTowerModel(embeddingDim = 8)`: empty tables,
`globalBias = 3.0`, `learningRate = 0.01`, `regularization = 0.001`. -/
def TwoTower.new (embeddingDim : ℕ := 8) : TwoTower :=
  { embeddingDim := embeddingDim
    userEmbeddings := []
    movieEmbeddings := []
    userBiases := []
    movieBiases := []
    globalBias := 3
    learningRate := 1/100
    regularization := 1/1000
    isTrained := false }

/-- `randomArray(length, scale)`: `(Math.random() - 0.5) * 2 * scale` per
coordinate.  `rng` is the `Math.random` oracle and `off` the position in its
stream. -/
def randomArray (rng : ℕ → ℚ) (off len : ℕ) (scale : ℚ) : List ℚ :=
  (List.range len).map fun i => (rng (off + i) - 1/2) * 2 * scale

/-- One `forEach` loop of `initializeParameters`: for each id not yet in the
embedding table, bind a fresh `randomArray(dim, scale)` embedding and a zero
bias; ids already present are skipped.  The state is
(embedding table, bias table, position in the random stream). -/
def initTable (dim : ℕ) (scale : ℚ) (rng : ℕ → ℚ) :
    List ℕ → List (ℕ × List ℚ) × List (ℕ × ℚ) × ℕ →
    List (ℕ × List ℚ) × List (ℕ × ℚ) × ℕ
  | [], st => st
  | id :: rest, (embs, biases, off) =>
    if (mapGet embs id).isSome then
      initTable dim scale rng rest (embs, biases, off)
    else
      initTable dim scale rng rest
        (mapSet embs id (randomArray rng off dim scale), mapSet biases id 0, off + dim)

/-- `initializeParameters(userIds, movieIds)`: the user loop followed by the
movie loop, the `Math.random` stream continuing across the two. -/
def TwoTower.initializeParameters (m : TwoTower) (userIds movieIds : List ℕ)
    (rng : ℕ → ℚ) : TwoTower :=
  let u := initTable m.embeddingDim (1/10) rng userIds (m.userEmbeddings, m.userBiases, 0)
  let v := initTable m.embeddingDim (1/10) rng movieIds (m.movieEmbeddings, m.movieBiases, u.2.2)
  { m with
      userEmbeddings := u.1, userBiases := u.2.1
      movieEmbeddings := v.1, movieBiases := v.2.1 }

/-- `Math.max` on rationals, kept as an explicit conditional so that concrete
states evaluate by kernel reduction. -/
def jsMax (a b : ℚ) : ℚ := if a ≤ b then b else a

/-- `Math.min` on rationals. -/
def jsMin (a b : ℚ) : ℚ := if a ≤ b then a else b

/-- `dotProduct(vec1, vec2)`: `vec1.reduce((sum, val, i) => sum + val * vec2[i], 0)`. -/
def dotProduct (v1 v2 : List ℚ) : ℚ :=
  (v1.zip v2).foldl (fun s p => s + p.1 * p.2) 0

/-- `predict(userId, movieId)`: when both embeddings exist,
`clamp(globalBias + userBias + movieBias + dot, 1, 5)`
(`Math.max(1, Math.min(5, prediction))`); otherwise the cold-start fallback
`globalBias`. -/
def TwoTower.predict (m : TwoTower) (userId movieId : ℕ) : ℚ :=
  match mapGet m.userEmbeddings userId, mapGet m.movieEmbeddings movieId with
  | some uE, some mE =>
    let userBias := (mapGet m.userBiases userId).getD 0
    let movieBias := (mapGet m.movieBiases movieId).getD 0
    let interaction := dotProduct uE mE
    let prediction := m.globalBias + userBias + movieBias + interaction
    jsMax 1 (jsMin 5 prediction)
  | _, _ => m.globalBias

/-- The UN-clamped prediction, written from the spec's words
(`global_bias + user_bias + item_bias + dot(user_emb, item_emb)`), used only
to compare against what the code actually feeds the gradient. -/
def rawPrediction (m : TwoTower) (userId movieId : ℕ) : ℚ :=
  m.globalBias + (mapGet m.userBiases userId).getD 0 +
    (mapGet m.movieBiases movieId).getD 0 +
    dotProduct ((mapGet m.userEmbeddings userId).getD [])
      ((mapGet m.movieEmbeddings movieId).getD [])

/-- `updateParameters(userId, movieId, error)`: per-coordinate SGD step with
L2 regularization; both gradients at coordinate `i` are computed from the
pre-update values before either array is written; biases move by
`-learningRate * error`.  If either embedding is missing the step returns
unchanged. -/
def TwoTower.updateParameters (m : TwoTower) (userId movieId : ℕ) (error : ℚ) : TwoTower :=
  match mapGet m.userEmbeddings userId, mapGet m.movieEmbeddings movieId with
  | some uE, some mE =>
    let newU := (List.range m.embeddingDim).map fun i =>
      uE.getD i 0 - m.learningRate * (error * mE.getD i 0 + m.regularization * uE.getD i 0)
    let newM := (List.range m.embeddingDim).map fun i =>
      mE.getD i 0 - m.learningRate * (error * uE.getD i 0 + m.regularization * mE.getD i 0)
    let ub := (mapGet m.userBiases userId).getD 0
    let mb := (mapGet m.movieBiases movieId).getD 0
    { m with
        userEmbeddings := mapSet m.userEmbeddings userId newU
        movieEmbeddings := mapSet m.movieEmbeddings movieId newM
        userBiases := mapSet m.userBiases userId (ub - m.learningRate * error)
        movieBiases := mapSet m.movieBiases movieId (mb - m.learningRate * error) }
  | _, _ => m

/-- One interaction record `{userId, movieId, rating}` as consumed by
`TwoTowerModel.train`. -/
structure Interaction where
  userId : ℕ
  movieId : ℕ
  rating : ℚ
  deriving DecidableEq, Repr

/-- The error computed in the training loop body:
`prediction = this.predict(userId, movieId); error = prediction - rating`. -/
def trainStepError (m : TwoTower) (r : Interaction) : ℚ :=
  m.predict r.userId r.movieId - r.rating

/-- The inner loop of one epoch: for each interaction, compute the error,
update the parameters, and accumulate squared error and count. -/
def trainEpochGo : TwoTower → ℚ → ℕ → List Interaction → TwoTower × ℚ × ℕ
  | m, total, count, [] => (m, total, count)
  | m, total, count, r :: rest =>
    let e := trainStepError m r
    trainEpochGo (m.updateParameters r.userId r.movieId e) (total + e * e) (count + 1) rest

/-- One epoch over the (already shuffled) interaction list. -/
def trainEpoch (m : TwoTower) (ints : List Interaction) : TwoTower × ℚ × ℕ :=
  trainEpochGo m 0 0 ints

/-- `[...new Set(xs)]`: deduplication keeping first occurrences. -/
def jsUniq (l : List ℕ) : List ℕ :=
  l.foldl (fun acc x => if x ∈ acc then acc else acc ++ [x]) []

/-- The epoch loop of `train`: shuffle (oracle), run the epoch, record the
mean squared error, and stop early once `|previousLoss - avgLoss| < 0.0001`
with `epoch > 10`.  `previousLoss = none` models the initial `Infinity`
(for which the early-stop comparison is false). -/
def trainLoop (shuffle : ℕ → List Interaction → List Interaction)
    (ints : List Interaction) :
    ℕ → ℕ → TwoTower → Option ℚ → List ℚ → TwoTower × List ℚ
  | 0, _, m, _, losses => (m, losses)
  | n + 1, epoch, m, prevLoss, losses =>
    let shuffled := shuffle epoch ints
    let res := trainEpoch m shuffled
    let avgLoss := res.2.1 / (res.2.2 : ℚ)
    let losses2 := losses ++ [avgLoss]
    if (match prevLoss with
        | some p => decide (|p - avgLoss| < 1/10000)
        | none => false) && decide (epoch > 10) then
      (res.1, losses2)
    else
      trainLoop shuffle ints n (epoch + 1) res.1 (some avgLoss) losses2

/-- `train(interactions, epochs)`: initialize parameters for the distinct
user/movie ids of the interactions, run the epoch loop, set `isTrained`, and
return the per-epoch losses. -/
def TwoTower.train (m : TwoTower) (ints : List Interaction) (epochs : ℕ)
    (rng : ℕ → ℚ) (shuffle : ℕ → List Interaction → List Interaction) :
    TwoTower × List ℚ :=
  let userIds := jsUniq (ints.map (·.userId))
  let movieIds := jsUniq (ints.map (·.movieId))
  let m1 := m.initializeParameters userIds movieIds rng
  let res := trainLoop shuffle ints epochs 0 m1 none []
  ({ res.1 with isTrained := true }, res.2)

/-- A `{movieId, score}` record produced by `recommend`. -/
structure ScoredMovie where
  movieId : ℕ
  score : ℚ
  deriving DecidableEq, Repr

/-- Stable insertion of `x` into a descending-sorted list: `x` goes before
the first element whose score is at most `score x`.  This is the unique
stable descending order, i.e. the result of the (stable, ES2019)
`Array.prototype.sort` with comparator `(a, b) => b.score - a.score`. -/
def insertDescBy {α : Type} (score : α → ℚ) (x : α) : List α → List α
  | [] => [x]
  | y :: ys => if score y ≤ score x then x :: y :: ys else y :: insertDescBy score x ys

/-- Stable descending sort by `score` (insertion sort, processing the list
from the right so that earlier elements win ties). -/
def sortDescBy {α : Type} (score : α → ℚ) (l : List α) : List α :=
  l.foldr (insertDescBy score) []

/-- `recommend(userId, allMovieIds, topK = 5)`: throws when not trained,
otherwise scores every candidate with `predict`, sorts descending by score
and takes the first `topK`.  No rated-set exclusion happens here. -/
def TwoTower.recommend (m : TwoTower) (userId : ℕ) (allMovieIds : List ℕ)
    (topK : ℕ := 5) : Except String (List ScoredMovie) :=
  if !m.isTrained then
    .error "Simple model not trained yet"
  else
    .ok ((sortDescBy (fun s => s.score)
      (allMovieIds.map fun movieId => ⟨movieId, m.predict userId movieId⟩)).take topK)

/-- The movie ids a user has rated, read off an interaction list. -/
def ratedItems (ints : List Interaction) (userId : ℕ) : List ℕ :=
  (ints.filter fun r => r.userId = userId).map (·.movieId)

example : (TwoTower.new 2).predict 0 0 = 3 := by decide

example :
    ((TwoTower.new 2).train [⟨0, 1, 3⟩] 1 (fun _ => 1/2) (fun _ l => l)).1.predict 0 1 = 3 := by
  decide

/-! ### Association-list lemmas -/

theorem mapGet_mapSet_self {α : Type} (l : List (ℕ × α)) (k : ℕ) (v : α) :
    mapGet (mapSet l k v) k = some v := by
  induction l with
  | nil => simp [mapSet, mapGet]
  | cons p rest ih =>
    obtain ⟨a, b⟩ := p
    by_cases h : a = k
    · subst h; simp [mapSet, mapGet]
    · simp [mapSet, mapGet, h, ih]

theorem mapGet_mapSet_ne {α : Type} (l : List (ℕ × α)) (k j : ℕ) (v : α) (h : j ≠ k) :
    mapGet (mapSet l k v) j = mapGet l j := by
  induction l with
  | nil => simp [mapSet, mapGet, Ne.symm h]
  | cons p rest ih =>
    obtain ⟨a, b⟩ := p
    by_cases ha : a = k
    · subst ha
      simp [mapSet, mapGet, Ne.symm h]
    · simp only [mapSet, if_neg ha, mapGet]
      by_cases hj : a = j <;> simp [hj, ih]

/-! ### The global bias is never written -/

theorem globalBias_initializeParameters (m : TwoTower) (us ms : List ℕ) (rng : ℕ → ℚ) :
    (m.initializeParameters us ms rng).globalBias = m.globalBias := rfl

theorem globalBias_updateParameters (m : TwoTower) (u i : ℕ) (e : ℚ) :
    (m.updateParameters u i e).globalBias = m.globalBias := by
  unfold TwoTower.updateParameters
  cases mapGet m.userEmbeddings u <;> cases mapGet m.movieEmbeddings i <;> rfl

theorem globalBias_trainEpochGo (ints : List Interaction) :
    ∀ (m : TwoTower) (total : ℚ) (count : ℕ),
      (trainEpochGo m total count ints).1.globalBias = m.globalBias := by
  induction ints with
  | nil => intro m total count; rfl
  | cons r rest ih =>
    intro m total count
    simp only [trainEpochGo]
    rw [ih, globalBias_updateParameters]

theorem globalBias_trainEpoch (m : TwoTower) (ints : List Interaction) :
    (trainEpoch m ints).1.globalBias = m.globalBias :=
  globalBias_trainEpochGo ints m 0 0

theorem globalBias_trainLoop (shuffle : ℕ → List Interaction → List Interaction)
    (ints : List Interaction) :
    ∀ (n epoch : ℕ) (m : TwoTower) (prev : Option ℚ) (losses : List ℚ),
      (trainLoop shuffle ints n epoch m prev losses).1.globalBias = m.globalBias := by
  intro n
  induction n with
  | zero => intro epoch m prev losses; rfl
  | succ n ih =>
    intro epoch m prev losses
    simp only [trainLoop]
    split
    · exact globalBias_trainEpoch _ _
    · rw [ih, globalBias_trainEpoch]

theorem globalBias_train (m : TwoTower) (ints : List Interaction) (epochs : ℕ)
    (rng : ℕ → ℚ) (shuffle : ℕ → List Interaction → List Interaction) :
    (m.train ints epochs rng shuffle).1.globalBias = m.globalBias := by
  unfold TwoTower.train
  simp only
  rw [show ∀ t : TwoTower, ({ t with isTrained := true } : TwoTower).globalBias = t.globalBias
    from fun _ => rfl]
  rw [globalBias_trainLoop, globalBias_initializeParameters]

/-- The model states reachable through the public methods of the class:
the constructor, `initializeParameters`, `updateParameters` and `train`
(`predict` and `recommend` are read-only). -/
inductive Reachable : TwoTower → Prop
  | new (dim : ℕ) : Reachable (TwoTower.new dim)
  | init (m : TwoTower) (us ms : List ℕ) (rng : ℕ → ℚ) :
      Reachable m → Reachable (m.initializeParameters us ms rng)
  | update (m : TwoTower) (u i : ℕ) (e : ℚ) :
      Reachable m → Reachable (m.updateParameters u i e)
  | train (m : TwoTower) (ints : List Interaction) (epochs : ℕ) (rng : ℕ → ℚ)
      (shuffle : ℕ → List Interaction → List Interaction) :
      Reachable m → Reachable (m.train ints epochs rng shuffle).1

theorem reachable_globalBias (m : TwoTower) (h : Reachable m) : m.globalBias = 3 := by
  induction h with
  | new dim => rfl
  | init m us ms rng _ ih => rw [globalBias_initializeParameters]; exact ih
  | update m u i e _ ih => rw [globalBias_updateParameters]; exact ih
  | train m ints epochs rng shuffle _ ih => rw [globalBias_train]; exact ih

/-! ### C1 and C9 -/

/-- C1: for every reachable (in particular every trained) factorization model
and every (userId, movieId) pair — including pairs where one or both ids were
never given parameters — `predict` returns a value in [1, 5]: the
known-entity branch is clamped by `Math.max(1, Math.min(5, ·))` and the
cold-start branch returns the global bias 3.0, which lies in [1, 5]. -/
theorem predict_in_rating_range (m : TwoTower) (h : Reachable m) (u i : ℕ) :
    1 ≤ m.predict u i ∧ m.predict u i ≤ 5 := by
  have hg : m.globalBias = 3 := reachable_globalBias m h
  unfold TwoTower.predict
  cases mapGet m.userEmbeddings u <;> cases mapGet m.movieEmbeddings i <;>
    simp only [hg] <;> try norm_num
  unfold jsMax jsMin
  split_ifs <;> constructor <;> linarith

theorem predict_in_rating_range_witness :
    1 ≤ (TwoTower.new 8).predict 0 0 ∧ (TwoTower.new 8).predict 0 0 ≤ 5 :=
  predict_in_rating_range (TwoTower.new 8) (Reachable.new 8) 0 0

/-- C9: the global bias of the factorization model is an invariant: it is
3.0 at construction and no reachable sequence of operations ever changes it;
consequently every cold-start prediction (unknown user or unknown movie)
returns exactly 3.0. -/
theorem globalBias_invariant_cold_start (m : TwoTower) (h : Reachable m) (u i : ℕ)
    (hcold : mapGet m.userEmbeddings u = none ∨ mapGet m.movieEmbeddings i = none) :
    m.globalBias = 3 ∧ m.predict u i = 3 := by
  have hg : m.globalBias = 3 := reachable_globalBias m h
  refine ⟨hg, ?_⟩
  unfold TwoTower.predict
  cases hu : mapGet m.userEmbeddings u <;> cases hi : mapGet m.movieEmbeddings i <;>
    simp_all

theorem globalBias_invariant_cold_start_witness :
    (TwoTower.new 8).globalBias = 3 ∧ (TwoTower.new 8).predict 5 7 = 3 :=
  globalBias_invariant_cold_start (TwoTower.new 8) (Reachable.new 8) 5 7 (Or.inl rfl)

/-! ### C10: `initializeParameters` and existing entities -/

theorem initTable_preserves (dim : ℕ) (scale : ℚ) (rng : ℕ → ℚ) (ids : List ℕ) :
    ∀ (embs : List (ℕ × List ℚ)) (biases : List (ℕ × ℚ)) (off u : ℕ),
      (mapGet embs u).isSome →
      mapGet (initTable dim scale rng ids (embs, biases, off)).1 u = mapGet embs u ∧
      mapGet (initTable dim scale rng ids (embs, biases, off)).2.1 u = mapGet biases u := by
  induction ids with
  | nil => intro embs biases off u _; exact ⟨rfl, rfl⟩
  | cons id rest ih =>
    intro embs biases off u hu
    by_cases h : (mapGet embs id).isSome
    · simpa only [initTable, if_pos h] using ih embs biases off u hu
    · have hne : u ≠ id := by
        rintro rfl; exact h hu
      have h1 : mapGet (mapSet embs id (randomArray rng off dim scale)) u = mapGet embs u :=
        mapGet_mapSet_ne _ _ _ _ hne
      have h2 : mapGet (mapSet biases id 0) u = mapGet biases u :=
        mapGet_mapSet_ne _ _ _ _ hne
      have hrec := ih (mapSet embs id (randomArray rng off dim scale)) (mapSet biases id 0)
        (off + dim) u (by rw [h1]; exact hu)
      simp only [initTable, if_neg h]
      exact ⟨hrec.1.trans h1, hrec.2.trans h2⟩

theorem initTable_fresh (dim : ℕ) (scale : ℚ) (rng : ℕ → ℚ) (ids : List ℕ) :
    ∀ (embs : List (ℕ × List ℚ)) (biases : List (ℕ × ℚ)) (off u : ℕ),
      mapGet embs u = none → u ∈ ids →
      ∃ off2, mapGet (initTable dim scale rng ids (embs, biases, off)).1 u =
          some (randomArray rng off2 dim scale) ∧
        mapGet (initTable dim scale rng ids (embs, biases, off)).2.1 u = some 0 := by
  induction ids with
  | nil => intro _ _ _ _ _ hmem; cases hmem
  | cons id rest ih =>
    intro embs biases off u hu hmem
    by_cases hid : u = id
    · subst hid
      have h : ¬(mapGet embs u).isSome := by rw [hu]; simp
      simp only [initTable, if_neg h]
      have hpres := initTable_preserves dim scale rng rest
        (mapSet embs u (randomArray rng off dim scale)) (mapSet biases u 0) (off + dim) u
        (by rw [mapGet_mapSet_self]; simp)
      refine ⟨off, ?_, ?_⟩
      · rw [hpres.1, mapGet_mapSet_self]
      · rw [hpres.2, mapGet_mapSet_self]
    · have hmem2 : u ∈ rest := by
        cases List.mem_cons.1 hmem with
        | inl h => exact absurd h hid
        | inr h => exact h
      by_cases h : (mapGet embs id).isSome
      · simpa only [initTable, if_pos h] using ih embs biases off u hu hmem2
      · simp only [initTable, if_neg h]
        exact ih (mapSet embs id (randomArray rng off dim scale)) (mapSet biases id 0)
          (off + dim) u (by rw [mapGet_mapSet_ne _ _ _ _ hid]; exact hu) hmem2

/-- C10: `initializeParameters` is idempotent on existing entities: an id
that already has an embedding keeps its embedding vector and bias unchanged
by any further `initializeParameters` call; and an id not yet present that
appears in the id list receives a fresh `randomArray(dim, 0.1)` embedding
(drawn at some position of the `Math.random` stream) and a zero bias. -/
theorem initializeParameters_preserves_existing (m : TwoTower)
    (userIds movieIds : List ℕ) (rng : ℕ → ℚ) (u i : ℕ)
    (hu : (mapGet m.userEmbeddings u).isSome)
    (hi : (mapGet m.movieEmbeddings i).isSome) :
    (mapGet (m.initializeParameters userIds movieIds rng).userEmbeddings u =
        mapGet m.userEmbeddings u ∧
      mapGet (m.initializeParameters userIds movieIds rng).userBiases u =
        mapGet m.userBiases u ∧
      mapGet (m.initializeParameters userIds movieIds rng).movieEmbeddings i =
        mapGet m.movieEmbeddings i ∧
      mapGet (m.initializeParameters userIds movieIds rng).movieBiases i =
        mapGet m.movieBiases i) ∧
    (∀ v, mapGet m.userEmbeddings v = none → v ∈ userIds →
      ∃ off, mapGet (m.initializeParameters userIds movieIds rng).userEmbeddings v =
          some (randomArray rng off m.embeddingDim (1/10)) ∧
        mapGet (m.initializeParameters userIds movieIds rng).userBiases v = some 0) := by
  unfold TwoTower.initializeParameters
  simp only
  constructor
  · have h1 := initTable_preserves m.embeddingDim (1/10) rng userIds
      m.userEmbeddings m.userBiases 0 u hu
    have h2 := initTable_preserves m.embeddingDim (1/10) rng movieIds
      m.movieEmbeddings m.movieBiases
      (initTable m.embeddingDim (1/10) rng userIds (m.userEmbeddings, m.userBiases, 0)).2.2
      i hi
    exact ⟨h1.1, h1.2, h2.1, h2.2⟩
  · intro v hv hvmem
    exact initTable_fresh m.embeddingDim (1/10) rng userIds
      m.userEmbeddings m.userBiases 0 v hv hvmem

/-- A concrete already-initialized state used as witness input. -/
def c10Model : TwoTower :=
  { TwoTower.new 1 with
      userEmbeddings := [(4, [9])], userBiases := [(4, 7)]
      movieEmbeddings := [(2, [8])], movieBiases := [(2, 5)] }

theorem initializeParameters_preserves_existing_witness :
    mapGet (c10Model.initializeParameters [4, 5] [2] (fun _ => 1/2)).userEmbeddings 4 =
        mapGet c10Model.userEmbeddings 4 ∧
      mapGet (c10Model.initializeParameters [4, 5] [2] (fun _ => 1/2)).userBiases 4 =
        mapGet c10Model.userBiases 4 ∧
      mapGet (c10Model.initializeParameters [4, 5] [2] (fun _ => 1/2)).movieEmbeddings 2 =
        mapGet c10Model.movieEmbeddings 2 ∧
      mapGet (c10Model.initializeParameters [4, 5] [2] (fun _ => 1/2)).movieBiases 2 =
        mapGet c10Model.movieBiases 2 :=
  (initializeParameters_preserves_existing c10Model [4, 5] [2] (fun _ => 1/2) 4 2
    (by decide) (by decide)).1

/-! ### C6: the SGD update step -/

theorem getD_map_range (n : ℕ) (f : ℕ → ℚ) (k : ℕ) (hk : k < n) :
    ((List.range n).map f).getD k 0 = f k := by
  rw [List.getD_eq_getElem?_getD, List.getElem?_map, List.getElem?_range hk]
  rfl

/-- C6: for every training step with error `e`, each embedding coordinate
`k < embeddingDim` is updated as
`user_emb[k] -= lr * (e * movie_emb[k] + reg * user_emb[k])` and
`movie_emb[k] -= lr * (e * user_emb[k] + reg * movie_emb[k])`, with every
value on the right-hand side read from the pre-update tables (no
read-after-write aliasing: user and movie embeddings live in distinct maps
and both gradients at a coordinate are computed before either write), and
each bias moves by exactly `-lr * e`. -/
theorem updateParameters_sgd_step (m : TwoTower) (u i : ℕ) (e : ℚ) (uE mE : List ℚ)
    (hu : mapGet m.userEmbeddings u = some uE)
    (hm : mapGet m.movieEmbeddings i = some mE)
    (k : ℕ) (hk : k < m.embeddingDim) :
    ((mapGet (m.updateParameters u i e).userEmbeddings u).getD []).getD k 0 =
      uE.getD k 0 - m.learningRate * (e * mE.getD k 0 + m.regularization * uE.getD k 0) ∧
    ((mapGet (m.updateParameters u i e).movieEmbeddings i).getD []).getD k 0 =
      mE.getD k 0 - m.learningRate * (e * uE.getD k 0 + m.regularization * mE.getD k 0) ∧
    (mapGet (m.updateParameters u i e).userBiases u).getD 0 =
      (mapGet m.userBiases u).getD 0 - m.learningRate * e ∧
    (mapGet (m.updateParameters u i e).movieBiases i).getD 0 =
      (mapGet m.movieBiases i).getD 0 - m.learningRate * e := by
  unfold TwoTower.updateParameters
  rw [hu, hm]
  simp only [mapGet_mapSet_self, Option.getD_some]
  refine ⟨?_, ?_, trivial, trivial⟩
  · rw [getD_map_range _ _ _ hk]
  · rw [getD_map_range _ _ _ hk]

/-- A concrete initialized state used as witness input for the update step. -/
def c6Model : TwoTower :=
  { TwoTower.new 1 with
      userEmbeddings := [(0, [2])], userBiases := [(0, 1/2)]
      movieEmbeddings := [(1, [3])], movieBiases := [(1, 1/4)] }

theorem updateParameters_sgd_step_witness :
    ((mapGet (c6Model.updateParameters 0 1 2).userEmbeddings 0).getD []).getD 0 0 =
      2 - (1/100) * (2 * 3 + (1/1000) * 2) ∧
    ((mapGet (c6Model.updateParameters 0 1 2).movieEmbeddings 1).getD []).getD 0 0 =
      3 - (1/100) * (2 * 2 + (1/1000) * 3) ∧
    (mapGet (c6Model.updateParameters 0 1 2).userBiases 0).getD 0 = 1/2 - (1/100) * 2 ∧
    (mapGet (c6Model.updateParameters 0 1 2).movieBiases 1).getD 0 = 1/4 - (1/100) * 2 := by
  have h := updateParameters_sgd_step c6Model 0 1 2 [2] [3] rfl rfl 0 (by decide)
  exact h

/-! ### Stable descending sort: lemmas for C7 -/

theorem mem_insertDescBy {α : Type} (s : α → ℚ) (x z : α) (l : List α) :
    z ∈ insertDescBy s x l ↔ z = x ∨ z ∈ l := by
  induction l with
  | nil => simp [insertDescBy]
  | cons y ys ih =>
    simp only [insertDescBy]
    split
    · simp [List.mem_cons]
    · simp [List.mem_cons, ih]
      tauto

theorem mem_sortDescBy {α : Type} (s : α → ℚ) (z : α) (l : List α) :
    z ∈ sortDescBy s l ↔ z ∈ l := by
  induction l with
  | nil => simp [sortDescBy]
  | cons y ys ih =>
    show z ∈ insertDescBy s y (sortDescBy s ys) ↔ _
    rw [mem_insertDescBy, ih]
    simp [List.mem_cons]

theorem pairwise_insertDescBy {α : Type} (s : α → ℚ) (x : α) (l : List α)
    (h : l.Pairwise (fun a b => s b ≤ s a)) :
    (insertDescBy s x l).Pairwise (fun a b => s b ≤ s a) := by
  induction l with
  | nil => simp [insertDescBy]
  | cons y ys ih =>
    rw [List.pairwise_cons] at h
    obtain ⟨hy, hys⟩ := h
    simp only [insertDescBy]
    split
    · rename_i hc
      rw [List.pairwise_cons]
      refine ⟨?_, List.pairwise_cons.2 ⟨hy, hys⟩⟩
      intro b hb
      rcases List.mem_cons.1 hb with rfl | hb2
      · exact hc
      · exact le_trans (hy b hb2) hc
    · rename_i hc
      rw [List.pairwise_cons]
      refine ⟨?_, ih hys⟩
      intro b hb
      rcases (mem_insertDescBy s x b ys).1 hb with rfl | hb2
      · exact le_of_lt (lt_of_not_le hc)
      · exact hy b hb2

theorem pairwise_sortDescBy {α : Type} (s : α → ℚ) (l : List α) :
    (sortDescBy s l).Pairwise (fun a b => s b ≤ s a) := by
  induction l with
  | nil => simp [sortDescBy]
  | cons y ys ih => exact pairwise_insertDescBy s y (sortDescBy s ys) ih

theorem stable_insertDescBy {α : Type} (s : α → ℚ) (tag : α → ℕ) (x : α) (l : List α)
    (hall : ∀ p ∈ l, tag x < tag p)
    (h : l.Pairwise (fun a b => s a = s b → tag a < tag b)) :
    (insertDescBy s x l).Pairwise (fun a b => s a = s b → tag a < tag b) := by
  induction l with
  | nil => simp [insertDescBy]
  | cons y ys ih =>
    rw [List.pairwise_cons] at h
    obtain ⟨hy, hys⟩ := h
    simp only [insertDescBy]
    split
    · rw [List.pairwise_cons]
      refine ⟨?_, List.pairwise_cons.2 ⟨hy, hys⟩⟩
      intro b hb _
      exact hall b hb
    · rename_i hc
      rw [List.pairwise_cons]
      refine ⟨?_, ih (fun p hp => hall p (List.mem_cons_of_mem y hp)) hys⟩
      intro b hb heq
      rcases (mem_insertDescBy s x b ys).1 hb with rfl | hb2
      · exact absurd (le_of_eq heq) hc
      · exact hy b hb2 heq

theorem stable_sortDescBy {α : Type} (s : α → ℚ) (tag : α → ℕ) (l : List α)
    (h : l.Pairwise (fun a b => tag a < tag b)) :
    (sortDescBy s l).Pairwise (fun a b => s a = s b → tag a < tag b) := by
  induction l with
  | nil => simp [sortDescBy]
  | cons x xs ih =>
    rw [List.pairwise_cons] at h
    exact stable_insertDescBy s tag x (sortDescBy s xs)
      (fun p hp => h.1 p ((mem_sortDescBy s p xs).1 hp)) (ih h.2)

/-- Position tags for the elements of a list, in input order. -/
def withTags {α : Type} : ℕ → List α → List (α × ℕ)
  | _, [] => []
  | n, x :: xs => (x, n) :: withTags (n + 1) xs

theorem withTags_map_fst {α : Type} : ∀ (n : ℕ) (l : List α),
    (withTags n l).map Prod.fst = l
  | _, [] => rfl
  | n, x :: xs => by simp [withTags, withTags_map_fst (n + 1) xs]

theorem withTags_tags_le {α : Type} : ∀ (n : ℕ) (l : List α),
    ∀ p ∈ withTags n l, n ≤ p.2
  | _, [], _, hp => by cases hp
  | n, x :: xs, p, hp => by
    rcases List.mem_cons.1 hp with rfl | hp2
    · exact le_refl n
    · exact le_trans (Nat.le_succ n) (withTags_tags_le (n + 1) xs p hp2)

theorem withTags_pairwise {α : Type} : ∀ (n : ℕ) (l : List α),
    (withTags n l).Pairwise (fun a b => a.2 < b.2)
  | _, [] => List.Pairwise.nil
  | n, x :: xs => by
    rw [withTags, List.pairwise_cons]
    exact ⟨fun p hp => Nat.lt_of_succ_le (withTags_tags_le (n + 1) xs p hp),
      withTags_pairwise (n + 1) xs⟩

theorem map_fst_insertDescBy {α : Type} (s : α → ℚ) (x : α × ℕ) (l : List (α × ℕ)) :
    (insertDescBy (fun p => s p.1) x l).map Prod.fst =
      insertDescBy s x.1 (l.map Prod.fst) := by
  induction l with
  | nil => rfl
  | cons y ys ih =>
    by_cases h : s y.1 ≤ s x.1 <;> simp [insertDescBy, h, ih]

theorem map_fst_sortDescBy {α : Type} (s : α → ℚ) (l : List (α × ℕ)) :
    (sortDescBy (fun p => s p.1) l).map Prod.fst = sortDescBy s (l.map Prod.fst) := by
  induction l with
  | nil => rfl
  | cons y ys ih =>
    show (insertDescBy (fun p => s p.1) y (sortDescBy (fun p => s p.1) ys)).map Prod.fst = _
    rw [map_fst_insertDescBy, ih]
    rfl

/-! ### C7: top-k, descending order, stability -/

/-- The candidate score list built by `recommend` from its candidate ids, in
candidate order, before sorting. -/
def scoreList (m : TwoTower) (userId : ℕ) (allMovieIds : List ℕ) : List ScoredMovie :=
  allMovieIds.map fun movieId => ⟨movieId, m.predict userId movieId⟩

/-- `recommend`'s sorted-and-truncated output, with each entry tagged by the
position of its candidate in the input candidate list. -/
def recommendTagged (m : TwoTower) (userId : ℕ) (allMovieIds : List ℕ)
    (topK : ℕ) : List (ScoredMovie × ℕ) :=
  (sortDescBy (fun p => p.1.score) (withTags 0 (scoreList m userId allMovieIds))).take topK

/-- C7: on a trained model, `recommend` succeeds, returns at most `topK`
entries, sorted in descending score order, and entries with equal scores
appear in the same relative order as their candidates did in the input list
(the position tags of the tagged output increase along every tie). -/
theorem recommend_topk_sorted_stable (m : TwoTower) (u : ℕ) (ids : List ℕ) (k : ℕ)
    (h : m.isTrained = true) :
    m.recommend u ids k = Except.ok ((recommendTagged m u ids k).map Prod.fst) ∧
    ((recommendTagged m u ids k).map Prod.fst).length ≤ k ∧
    ((recommendTagged m u ids k).map Prod.fst).Pairwise (fun a b => b.score ≤ a.score) ∧
    (recommendTagged m u ids k).Pairwise
      (fun a b => a.1.score = b.1.score → a.2 < b.2) := by
  have hmap : (recommendTagged m u ids k).map Prod.fst =
      (sortDescBy (fun sc => sc.score) (scoreList m u ids)).take k := by
    unfold recommendTagged
    rw [List.map_take, map_fst_sortDescBy, withTags_map_fst]
  refine ⟨?_, ?_, ?_, ?_⟩
  · unfold TwoTower.recommend
    rw [h, hmap]
    rfl
  · rw [hmap, List.length_take]
    exact min_le_left _ _
  · rw [hmap]
    exact List.Pairwise.sublist (List.take_sublist _ _) (pairwise_sortDescBy _ _)
  · exact List.Pairwise.sublist (List.take_sublist _ _)
      (stable_sortDescBy (fun p : ScoredMovie × ℕ => p.1.score) Prod.snd _
        (withTags_pairwise 0 _))

/-- A trained model on which every candidate gets the same (tied) score. -/
def c7Model : TwoTower :=
  { TwoTower.new 2 with isTrained := true }

theorem recommend_topk_sorted_stable_witness :
    c7Model.recommend 0 [1, 2] 5 =
        Except.ok ((recommendTagged c7Model 0 [1, 2] 5).map Prod.fst) ∧
    ((recommendTagged c7Model 0 [1, 2] 5).map Prod.fst).length ≤ 5 ∧
    ((recommendTagged c7Model 0 [1, 2] 5).map Prod.fst).Pairwise
      (fun a b => b.score ≤ a.score) ∧
    (recommendTagged c7Model 0 [1, 2] 5).Pairwise
      (fun a b => a.1.score = b.1.score → a.2 < b.2) :=
  recommend_topk_sorted_stable c7Model 0 [1, 2] 5 rfl

/-! ### C2: rated-set exclusion -/

/-- A `{itemId, score, itemIndex}` record pushed by
`filterAndSortRecommendations`. -/
structure CandidateScore where
  itemId : ℕ
  score : ℚ
  itemIndex : ℕ
  deriving DecidableEq, Repr

/-- The `allItemScores.forEach` loop of `filterAndSortRecommendations`:
for each (score, itemIndex), resolve the item id through `reverseItemMap`
and keep the entry only when the id is not in the user's rated set. -/
def candidateList (ratedItemIds : List ℕ) (reverseItemMap : List (ℕ × ℕ))
    (allItemScores : List ℚ) : List CandidateScore :=
  (withTags 0 allItemScores).filterMap fun p =>
    if (mapGet reverseItemMap p.2).getD 0 ∈ ratedItemIds then none
    else some ⟨(mapGet reverseItemMap p.2).getD 0, p.1, p.2⟩

/-- `MovieLensApp.filterAndSortRecommendations(userId, allItemScores)`:
build the candidate list excluding already-rated items, sort by score
descending, take the first 10.  The user's rated set and the reverse
item-index map are data read from the app state and passed here
explicitly. -/
def filterAndSortRecommendations (ratedItemIds : List ℕ)
    (reverseItemMap : List (ℕ × ℕ)) (allItemScores : List ℚ) : List CandidateScore :=
  (sortDescBy (fun c => c.score)
    (candidateList ratedItemIds reverseItemMap allItemScores)).take 10

/-- The interactions making up the C2 counterexample: user 0 rated movie 1. -/
def c2Interactions : List Interaction := [⟨0, 1, 3⟩]

/-- The model trained (one epoch, identity shuffle, `Math.random ≡ 0.5`)
on those interactions. -/
def c2Model : TwoTower :=
  ((TwoTower.new 2).train c2Interactions 1 (fun _ => 1/2) (fun _ l => l)).1

/-- C2 counterexample: `TwoTowerModel.recommend` itself performs no
rated-set exclusion.  The model trained on user 0's rating of movie 1
happily recommends movie 1 back to user 0 when movie 1 is in the candidate
list, even though movie 1 is in user 0's rated set. -/
theorem recommend_returns_rated_item_cex :
    1 ∈ ratedItems c2Interactions 0 ∧
    c2Model.recommend 0 [1] 5 = Except.ok [⟨1, 3⟩] := by
  exact ⟨by decide, by rfl⟩

/-- C2 amended: the rated-set exclusion lives in the app layer only.  Every
entry returned by `filterAndSortRecommendations` has an item id outside the
user's rated set. -/
theorem filterAndSort_excludes_rated (rated : List ℕ) (rim : List (ℕ × ℕ))
    (scores : List ℚ) (c : CandidateScore)
    (h : c ∈ filterAndSortRecommendations rated rim scores) :
    c.itemId ∉ rated := by
  unfold filterAndSortRecommendations at h
  have h2 : c ∈ sortDescBy (fun c => c.score) (candidateList rated rim scores) :=
    (List.take_sublist _ _).subset h
  rw [mem_sortDescBy] at h2
  unfold candidateList at h2
  rw [List.mem_filterMap] at h2
  obtain ⟨p, _, hf⟩ := h2
  by_cases hin : (mapGet rim p.2).getD 0 ∈ rated
  · rw [if_pos hin] at hf
    cases hf
  · rw [if_neg hin] at hf
    cases hf
    exact hin

theorem filterAndSort_excludes_rated_witness :
    (⟨2, 7, 0⟩ : CandidateScore).itemId ∉ [1] :=
  filterAndSort_excludes_rated [1] [(0, 2)] [7] ⟨2, 7, 0⟩ (by decide)

/-! ### C3: the gradient error uses the clamped prediction -/

/-- C3 amended: when both entities are initialized, the error the training
loop feeds to `updateParameters` is the CLAMPED prediction minus the rating
— `clamp(globalBias + userBias + movieBias + dot, 1, 5) - rating` — not the
un-clamped value. -/
theorem trainStepError_eq_clamped_prediction (m : TwoTower) (r : Interaction)
    (uE mE : List ℚ) (hu : mapGet m.userEmbeddings r.userId = some uE)
    (hm : mapGet m.movieEmbeddings r.movieId = some mE) :
    trainStepError m r =
      jsMax 1 (jsMin 5 (rawPrediction m r.userId r.movieId)) - r.rating := by
  unfold trainStepError TwoTower.predict rawPrediction
  rw [hu, hm]
  rfl

theorem trainStepError_eq_clamped_prediction_witness :
    trainStepError c6Model ⟨0, 1, 2⟩ =
      jsMax 1 (jsMin 5 (rawPrediction c6Model 0 1)) - 2 :=
  trainStepError_eq_clamped_prediction c6Model ⟨0, 1, 2⟩ [2] [3] rfl rfl

/-- The interactions of the C3 counterexample: 100 rating-5 interactions of
user 0 on movie 0, then 32 rating-5 interactions of user 1 on the same
movie.  All ratings are in the data model's range [1, 5]. -/
def c3Interactions : List Interaction :=
  List.replicate 100 ⟨0, 0, 5⟩ ++ List.replicate 32 ⟨1, 0, 5⟩

/-- The model after training one epoch on those 132 interactions (identity
shuffle, `Math.random ≡ 0.5`, so all embeddings are exactly zero and the
dynamics live in the biases). -/
def c3Model : TwoTower :=
  ((TwoTower.new 8).train c3Interactions 1 (fun _ => 1/2) (fun _ l => l)).1

set_option maxRecDepth 100000 in
/-- C3 counterexample: after those 132 in-range training steps the raw
(un-clamped) prediction for (user 0, movie 0) exceeds 5, so at the next
training step on (0, 0, rating 5) the error the code uses
(`predict - rating`, with `predict` clamped, hence 0) differs from the
un-clamped dot-product-based prediction minus the rating claimed by the
spec. -/
theorem trainStepError_unclamped_cex :
    5 < rawPrediction c3Model 0 0 ∧
    trainStepError c3Model ⟨0, 0, 5⟩ ≠ rawPrediction c3Model 0 0 - 5 := by
  decide

/-! ### C4: the MLP logit target at boundary ratings -/

/-- The argument of `Math.log` in `MLPModel.train`'s
`scaledTarget = Math.log((rating - 1) / (5 - rating))`, as the
(numerator, denominator) pair the code divides — computed unconditionally
for every training example, with no branch on the rating. -/
def mlpScaledTargetArg (rating : ℚ) : ℚ × ℚ := (rating - 1, 5 - rating)

/-- C4 (code bug): ratings exactly 5 and 1 are neither clamped to an
ε-inset nor rejected: the transform is applied as-is, and at rating 5 the
denominator is 0 (in JS `4 / 0 = Infinity`, `Math.log(Infinity) = Infinity`)
while at rating 1 the numerator is 0 (`Math.log(0) = -Infinity`). -/
theorem mlp_scaled_target_boundary_degenerate :
    (mlpScaledTargetArg 5).2 = 0 ∧ (mlpScaledTargetArg 5).1 = 4 ∧
    (mlpScaledTargetArg 1).1 = 0 ∧ (mlpScaledTargetArg 1).2 = 4 := by
  decide

/-! ### C5: the PCA projector (`MovieLensApp.computePCA`)

`computePCA` mixes plain arithmetic with `Math.sqrt`, so it is modelled over
the reals. -/

noncomputable section PCA

/-- The mean vector of `computePCA`: per coordinate, the sum of the input
vectors divided by their number. -/
def pcaMean (embeddings : List (List ℝ)) (dim : ℕ) : List ℝ :=
  (List.range dim).map fun i =>
    (embeddings.foldl (fun acc emb => acc + emb.getD i 0) 0) / (embeddings.length : ℝ)

/-- Centering: `embeddings.map(emb => emb.map((val, i) => val - mean[i]))`. -/
def pcaCentered (embeddings : List (List ℝ)) (mean : List ℝ) : List (List ℝ) :=
  embeddings.map fun emb => emb.mapIdx fun i val => val - mean.getD i 0

/-- The covariance matrix: `covariance[i][j] = Σ emb[i]*emb[j] / n` over the
centered vectors. -/
def pcaCovariance (centered : List (List ℝ)) (dim n : ℕ) : List (List ℝ) :=
  (List.range dim).map fun i => (List.range dim).map fun j =>
    (centered.foldl (fun acc emb => acc + emb.getD i 0 * emb.getD j 0) 0) / (n : ℝ)

/-- `newVector[i] = Σ_j covariance[i][j] * vector[j]`. -/
def matVec (mat : List (List ℝ)) (v : List ℝ) : List ℝ :=
  mat.map fun row => (row.zip v).foldl (fun s p => s + p.1 * p.2) 0

/-- `norm = Math.sqrt(newVector.reduce((sum, val) => sum + val * val, 0))`. -/
def vecNorm (v : List ℝ) : ℝ :=
  Real.sqrt ((v.map fun val => val * val).sum)

/-- One power-iteration step: multiply by the covariance matrix and divide
every coordinate by the norm.  The division has NO zero-norm guard, exactly
as in the source. -/
def powerIterStep (cov : List (List ℝ)) (v : List ℝ) : List ℝ :=
  (matVec cov v).map fun val => val / vecNorm (matVec cov v)

/-- The fixed 10-iteration power iteration loop (`for iter in 0..10`). -/
def powerIterate (cov : List (List ℝ)) : ℕ → List ℝ → List ℝ
  | 0, v => v
  | k + 1, v => powerIterate cov k (powerIterStep cov v)

/-- Deflation: `covariance[i][j] -= vector[i] * vector[j]`. -/
def pcaDeflate (cov : List (List ℝ)) (vec : List ℝ) : List (List ℝ) :=
  cov.mapIdx fun i row => row.mapIdx fun j val => val - vec.getD i 0 * vec.getD j 0

/-- The component-extraction loop: run 10 power iterations from the
`1/√dim`-filled start vector, record the component, deflate, repeat. -/
def pcaComponents (init : List ℝ) : ℕ → List (List ℝ) → List (List ℝ)
  | 0, _ => []
  | d + 1, cov =>
    powerIterate cov 10 init ::
      pcaComponents init d (pcaDeflate cov (powerIterate cov 10 init))

/-- `MovieLensApp.computePCA(embeddings, dimensions)`: center, covariance,
`dimensions` power-iteration components with deflation, then project every
input vector onto each component. -/
def computePCA (embeddings : List (List ℝ)) (dimensions : ℕ) : List (List ℝ) :=
  let n := embeddings.length
  let dim := (embeddings.getD 0 []).length
  let mean := pcaMean embeddings dim
  let centered := pcaCentered embeddings mean
  let covariance := pcaCovariance centered dim n
  let init : List ℝ := List.replicate dim (1 / Real.sqrt (dim : ℝ))
  let components := pcaComponents init dimensions covariance
  embeddings.map fun emb => components.map fun comp =>
    (emb.zip comp).foldl (fun s p => s + p.1 * p.2) 0

end PCA

/-- C5 (code bug): on the degenerate input `[[0]]` (one all-zero vector,
as arises when all sampled embeddings coincide), the covariance matrix is
zero, so the very first power-iteration step computes `norm = 0` — and
`powerIterStep` divides by that norm unconditionally (in JS `0 / 0 = NaN`),
because no zero-norm guard exists in `computePCA`. -/
theorem pca_power_iteration_zero_norm :
    pcaCovariance (pcaCentered [[0]] (pcaMean [[0]] 1)) 1 1 = [[0]] ∧
    vecNorm (matVec (pcaCovariance (pcaCentered [[0]] (pcaMean [[0]] 1)) 1 1)
      (List.replicate 1 (1 / Real.sqrt (1 : ℝ)))) = 0 := by
  have hcov : pcaCovariance (pcaCentered [[0]] (pcaMean [[0]] 1)) 1 1 = [[0]] := by
    simp [pcaCovariance, pcaCentered, pcaMean, List.range_succ]
  refine ⟨hcov, ?_⟩
  rw [hcov]
  simp [matVec, vecNorm]

/-! ### C8: the in-batch softmax cross-entropy loss at batch size 1 -/

/-- State of the tensor-based `TwoTowerModel` (`two-tower.js`): the two
embedding tables, rows indexed by dense user/item index. -/
structure TfTwoTower where
  userEmbeddings : List (List ℝ)
  itemEmbeddings : List (List ℝ)

/-- `tf.gather(table, indices)`. -/
def tfGather (table : List (List ℝ)) (idx : List ℕ) : List (List ℝ) :=
  idx.map fun i => table.getD i []

/-- Dot product of two real vectors (`tf.sum(tf.mul(u, v), -1)` one row at
a time). -/
def dotR (v1 v2 : List ℝ) : ℝ :=
  (v1.zip v2).foldl (fun s p => s + p.1 * p.2) 0

/-- `logits = tf.matMul(userEmbs, itemEmbs, false, true)`: the B×B
similarity matrix. -/
def logitsMatrix (uE iE : List (List ℝ)) : List (List ℝ) :=
  uE.map fun u => iE.map fun i => dotR u i

/-- `tf.oneHot(tf.range(0, B), B)`: the identity label matrix. -/
def oneHotMatrix (b : ℕ) : List (List ℝ) :=
  (List.range b).map fun r => (List.range b).map fun c => if c = r then 1 else 0

noncomputable section SoftmaxLoss

/-- Row-wise softmax. -/
def softmaxRow (row : List ℝ) : List ℝ :=
  row.map fun x => Real.exp x / (row.map Real.exp).sum

/-- One row of the cross-entropy: `-Σ_j label_j * log(softmax(row)_j)`. -/
def rowCrossEntropy (labels row : List ℝ) : ℝ :=
  -(((labels.zip (softmaxRow row)).map fun p => p.1 * Real.log p.2).sum)

/-- `tf.losses.softmaxCrossEntropy(labels, logits)`: the mean over the batch
of the row-wise softmax cross-entropies. -/
def softmaxCrossEntropy (labels logits : List (List ℝ)) : ℝ :=
  (((labels.zip logits).map fun p => rowCrossEntropy p.1 p.2).sum) / (logits.length : ℝ)

/-- The loss computed (and returned) by `TwoTowerModel.trainStep` on a batch
of user/item index pairs: in-batch softmax cross-entropy of the similarity
matrix against the diagonal labels.  (The Adam parameter update that
`optimizer.minimize` also performs is not needed by the claims and is not
modelled.) -/
def TfTwoTower.trainStepLoss (m : TfTwoTower) (userIndices itemIndices : List ℕ) : ℝ :=
  softmaxCrossEntropy (oneHotMatrix userIndices.length)
    (logitsMatrix (tfGather m.userEmbeddings userIndices)
      (tfGather m.itemEmbeddings itemIndices))

end SoftmaxLoss

/-- C8: for every model state and every batch of size B = 1, the in-batch
softmax cross-entropy loss returned by `trainStep` is exactly 0 — the
single-row softmax assigns probability `exp s / exp s = 1` to the lone
positive and `-log 1 = 0`; in these real-number semantics no NaN can
arise. -/
theorem trainStep_loss_batch_one_zero (m : TfTwoTower) (u i : ℕ) :
    m.trainStepLoss [u] [i] = 0 := by
  unfold TfTwoTower.trainStepLoss softmaxCrossEntropy rowCrossEntropy softmaxRow
    logitsMatrix oneHotMatrix tfGather
  simp [List.range_succ, div_self (Real.exp_ne_zero _), Real.log_one]

end RecSys
